import Mathlib

/-!
Verification of the tuifade library (ANSI colour fading).

The repository contains several near-duplicate revisions of the same module:
* revision 1 (top of `tuifade.go`): `Interpolate` returns a hex string,
  `hexToHSL` converts via go-colorful;
* the caching revision (`v0.0.5`): `Interpolate` memoises results in a global
  cache keyed by `"%s_%s_%.6f"` of its arguments, and hex→RGB/HSL conversions
  are memoised in a second cache;
* the latest revision (bottom of `tuifade.go`): `Interpolate` returns an
  `Interpolation` record carrying hex, RGB and HSL forms of the result, and
  `fade` rebuilds each parsed segment rather than mutating it.

All revisions share the colour-math core, which is embedded once below.
The ANSI parse/serialize collaborator (`go-ansi-parser`) and terminal
detection (`termenv`) are external to the repository; `fade` is therefore
modelled on the parsed segment sequence, and `Fade` is parametrised by the
parse/serialize functions and by the terminal environment.

Floating point is modelled by `ℚ`.  Every fact proved below about the
rational model holds of the Go `float64` computation at the inputs used:
interpolation weights are compared and clamped exactly, and at the concrete
factors appearing in theorems and witnesses the `float64` arithmetic is
exact or has error many orders of magnitude below the relevant rounding
boundaries.  The go-colorful `delinearize` function (used when deriving HSL)
contains a real-valued power and is kept as an explicit parameter `d`;
theorems about HSL assume only the facts `d 0 = 0` and `0 < d 1`, which hold
of the real function.
-/

namespace Tuifade

/-! ## Colour-math core (shared by all revisions) -/

/-- RGB colour: three 8-bit channels, from `ansiParse.Rgb`.  Channels are
modelled as `Nat`; every constructor in the embedding produces values below
256, matching `uint8`. -/
structure Rgb where
  R : Nat
  G : Nat
  B : Nat
deriving DecidableEq, Repr

/-- HSL colour, from `ansiParse.Hsl` (fields are `float64` in Go). -/
structure Hsl where
  H : ℚ
  S : ℚ
  L : ℚ
deriving DecidableEq, Repr

/-- Hex-digit test of Go's `fmt` scanner for the `%x` verb:
`0-9`, `a-f`, `A-F`. -/
def isHexDigit (c : Char) : Bool :=
  (('0' ≤ c : Bool) && (c ≤ '9' : Bool)) ||
  (('a' ≤ c : Bool) && (c ≤ 'f' : Bool)) ||
  (('A' ≤ c : Bool) && (c ≤ 'F' : Bool))

/-- Numeric value of a hex digit, as Go's scanner computes it
(48, 87, 55 are the code points of `'0'`, `'a' - 10`, `'A' - 10`). -/
def hexVal (c : Char) : Nat :=
  if ('0' ≤ c : Bool) && (c ≤ '9' : Bool) then c.toNat - 48
  else if ('a' ≤ c : Bool) && (c ≤ 'f' : Bool) then c.toNat - 87
  else c.toNat - 55

/-- Whitespace skipping performed by Go's `fmt` scanner before a numeric
verb (`ss.SkipSpace`).  Newline handling of `Sscanf` is not modelled; no
input in this development contains whitespace, so only the blank and tab
cases matter for faithfulness. -/
def skipSpaces : List Char → List Char
  | c :: rest => if c == ' ' || c == '\t' then skipSpaces rest else c :: rest
  | [] => []

/-- One `%02x` verb of `fmt.Sscanf`: skip spaces, then read one or two hex
digits (the width `2` is a maximum, not an exact length), greedily.  Returns
the parsed value and the unconsumed input, or `none` when no hex digit is
available. -/
def scanHex2 (s : List Char) : Option (Nat × List Char) :=
  match skipSpaces s with
  | c₁ :: rest₁ =>
    if isHexDigit c₁ then
      match rest₁ with
      | c₂ :: rest₂ =>
        if isHexDigit c₂ then some (16 * hexVal c₁ + hexVal c₂, rest₂)
        else some (hexVal c₁, rest₁)
      | [] => some (hexVal c₁, [])
    else none
  | [] => none

/-- `hexToRGB`: `fmt.Sscanf(hex, "#%02x%02x%02x", &r, &g, &b)`.  The literal
`#` must match the first character; each `%02x` reads one or two hex digits;
`Sscanf` ignores any input left over after the third verb. -/
def hexToRGB (hex : String) : Option Rgb :=
  match hex.data with
  | c :: rest =>
    if c = '#' then
      match scanHex2 rest with
      | some (r, rest₁) =>
        match scanHex2 rest₁ with
        | some (g, rest₂) =>
          match scanHex2 rest₂ with
          | some (b, _) => some ⟨r, g, b⟩
          | none => none
        | none => none
      | none => none
    else none
  | [] => none

/-- Lower-case hex digit for a nibble, as `fmt.Sprintf("%02x", ·)` prints
(code point 48 is `'0'`; 87 + n is `'a' + (n - 10)` for n ≥ 10). -/
def toHexDigit (n : Nat) : Char :=
  if n < 10 then Char.ofNat (48 + n) else Char.ofNat (87 + n)

/-- Two-digit zero-padded lower-case hex of a `uint8` value. -/
def byteToHex (n : Nat) : List Char :=
  [toHexDigit (n / 16), toHexDigit (n % 16)]

/-- `rgbToHex`: `fmt.Sprintf("#%02x%02x%02x", rgb.R, rgb.G, rgb.B)`. -/
def rgbToHex (rgb : Rgb) : String :=
  ⟨'#' :: (byteToHex rgb.R ++ byteToHex rgb.G ++ byteToHex rgb.B)⟩

/-- Go's `math.Round`: round half away from zero. -/
def goRound (q : ℚ) : ℤ :=
  if 0 ≤ q then ⌊q + 1/2⌋ else -⌊-q + 1/2⌋

/-- `interpolateChannel`: `uint8(math.Round(float64(bg)*bgWeight +
float64(fg)*fgWeight))`.  The conversion to `uint8` is in range at every
call site (weights sum to one and come from a clamped factor). -/
def interpolateChannel (bg fg : Nat) (bgWeight fgWeight : ℚ) : Nat :=
  (goRound ((bg : ℚ) * bgWeight + (fg : ℚ) * fgWeight)).toNat

/-- Clamping of the interpolation factor performed inside `Interpolate`. -/
def clampFactor (f : ℚ) : ℚ :=
  if f < 0 then 0 else if f > 1 then 1 else f

/-- The `Hsl()` method of go-colorful, on a colour with components
`r g b : ℚ`: standard RGB→HSL, hue in `[0,360)` degrees, saturation and
lightness in `[0,1]`. -/
def hslOfColor (r g b : ℚ) : ℚ × ℚ × ℚ :=
  let mn := min (min r g) b
  let mx := max (max r g) b
  let l := (mx + mn) / 2
  if mn = mx then (0, 0, l)
  else
    let s := if l < 1/2 then (mx - mn) / (mx + mn) else (mx - mn) / (2 - mx - mn)
    let h₀ :=
      if mx = r then (g - b) / (mx - mn)
      else if mx = g then 2 + (b - r) / (mx - mn)
      else 4 + (r - g) / (mx - mn)
    let h₁ := h₀ * 60
    let h := if h₁ < 0 then h₁ + 360 else h₁
    (h, s, l)

/-- `rgbToHSL`: `colorful.LinearRgb(R/255, G/255, B/255).Hsl()`.  The
parameter `d` is go-colorful's `delinearize` (it contains a real-valued
power, so it is kept abstract; `d 0 = 0` and `d 1 = 1` up to float error). -/
def rgbToHSL (d : ℚ → ℚ) (rgb : Rgb) : ℚ × ℚ × ℚ :=
  hslOfColor (d ((rgb.R : ℚ) / 255)) (d ((rgb.G : ℚ) / 255)) (d ((rgb.B : ℚ) / 255))

/-- `hexToHSL` (revision 1) and `colourCache.getHSL` (caching revision):
convert hex to RGB, run the go-colorful transform, then scale
`H: h*360, S: s*100, L: l*100`. -/
def hexToHSL (d : ℚ → ℚ) (hex : String) : Option Hsl :=
  match hexToRGB hex with
  | none => none
  | some rgb =>
    let hsl := rgbToHSL d rgb
    some ⟨hsl.1 * 360, hsl.2.1 * 100, hsl.2.2 * 100⟩

end Tuifade

namespace Tuifade.Rev1

/-- Revision-1 `Interpolate` (`tuifade.go`, top half): parse both hex
colours, clamp the factor, interpolate each channel, re-encode as hex. -/
def Interpolate (hexBackground hexForeground : String) (interpolation : ℚ) :
    Option String :=
  match hexToRGB hexBackground with
  | none => none
  | some background =>
    match hexToRGB hexForeground with
    | none => none
    | some foreground =>
      let i := clampFactor interpolation
      let bgWeight := 1 - i
      let fgWeight := i
      let r := interpolateChannel background.R foreground.R bgWeight fgWeight
      let g := interpolateChannel background.G foreground.G bgWeight fgWeight
      let b := interpolateChannel background.B foreground.B bgWeight fgWeight
      some (rgbToHex ⟨r, g, b⟩)

end Tuifade.Rev1

namespace Tuifade

/-! ## Validity and lower-casing, for the statements taken from the spec -/

/-- A valid hex colour string per the spec: `#` followed by exactly six hex
digits, any case. -/
def ValidHex (s : String) : Prop :=
  ∃ c₁ c₂ c₃ c₄ c₅ c₆, s.data = ['#', c₁, c₂, c₃, c₄, c₅, c₆] ∧
    (isHexDigit c₁ && isHexDigit c₂ && isHexDigit c₃ &&
     isHexDigit c₄ && isHexDigit c₅ && isHexDigit c₆) = true

/-- ASCII lower-casing of one character (spec-side normalisation). -/
def lowerChar (c : Char) : Char :=
  if ('A' ≤ c : Bool) && (c ≤ 'Z' : Bool) then Char.ofNat (c.toNat + 32) else c

/-- ASCII lower-casing of a string (spec-side normalisation). -/
def lowerStr (s : String) : String :=
  ⟨s.data.map lowerChar⟩

/-! ## Scanning and printing lemmas -/

theorem isHexDigit_toHexDigit {n : Nat} (h : n < 16) :
    isHexDigit (toHexDigit n) = true := by
  interval_cases n <;> decide

theorem hexVal_toHexDigit {n : Nat} (h : n < 16) :
    hexVal (toHexDigit n) = n := by
  interval_cases n <;> decide

theorem lowerChar_toHexDigit {n : Nat} (h : n < 16) :
    lowerChar (toHexDigit n) = toHexDigit n := by
  interval_cases n <;> decide

theorem hexDigit_not_space {c : Char} (h : isHexDigit c = true) :
    (c == ' ' || c == '\t') = false := by
  by_cases h₁ : c = ' '
  · subst h₁; exact absurd h (by decide)
  by_cases h₂ : c = '\t'
  · subst h₂; exact absurd h (by decide)
  simp [h₁, h₂]

theorem skipSpaces_cons {c : Char} {l : List Char} (h : isHexDigit c = true) :
    skipSpaces (c :: l) = c :: l := by
  simp [skipSpaces, hexDigit_not_space h]

theorem scanHex2_cons₂ {c₁ c₂ : Char} (l : List Char)
    (h₁ : isHexDigit c₁ = true) (h₂ : isHexDigit c₂ = true) :
    scanHex2 (c₁ :: c₂ :: l) = some (16 * hexVal c₁ + hexVal c₂, l) := by
  simp [scanHex2, skipSpaces_cons h₁, h₁, h₂]

theorem scanHex2_byteToHex {n : Nat} (h : n < 256) (l : List Char) :
    scanHex2 (byteToHex n ++ l) = some (n, l) := by
  have h₁ : n / 16 < 16 := by omega
  have h₂ : n % 16 < 16 := Nat.mod_lt _ (by norm_num)
  simp only [byteToHex, List.cons_append, List.nil_append,
    scanHex2_cons₂ l (isHexDigit_toHexDigit h₁) (isHexDigit_toHexDigit h₂),
    hexVal_toHexDigit h₁, hexVal_toHexDigit h₂]
  congr 1
  congr 1
  omega

theorem scanHex2_byteToHex_nil {n : Nat} (h : n < 256) :
    scanHex2 (byteToHex n) = some (n, []) := by
  simpa using scanHex2_byteToHex h []

theorem hexToRGB_rgbToHex {r g b : Nat} (hr : r < 256) (hg : g < 256) (hb : b < 256) :
    hexToRGB (rgbToHex ⟨r, g, b⟩) = some ⟨r, g, b⟩ := by
  have hdata : (rgbToHex ⟨r, g, b⟩).data =
      '#' :: (byteToHex r ++ (byteToHex g ++ byteToHex b)) := by
    simp [rgbToHex]
  simp only [hexToRGB, hdata]
  simp [scanHex2_byteToHex hr, scanHex2_byteToHex hg, scanHex2_byteToHex_nil hb]

theorem toHexDigit_hexVal {c : Char} (h : isHexDigit c = true) :
    toHexDigit (hexVal c) = lowerChar c := by
  simp only [isHexDigit, Bool.or_eq_true, Bool.and_eq_true, decide_eq_true_eq] at h
  rcases h with (⟨h₁, h₂⟩ | ⟨h₁, h₂⟩) | ⟨h₁, h₂⟩
  · have l₁ : (48 : Nat) ≤ c.toNat := h₁
    have l₂ : c.toNat ≤ (57 : Nat) := h₂
    have hval : hexVal c = c.toNat - 48 := by
      simp [hexVal, decide_eq_true (show '0' ≤ c from h₁), decide_eq_true (show c ≤ '9' from h₂)]
    have hlow : lowerChar c = c := by
      have hz : ¬ ('A' ≤ c) := fun hle => absurd (show (65 : Nat) ≤ c.toNat from hle) (by omega)
      simp [lowerChar, hz]
    rw [hval, hlow, toHexDigit, if_pos (by omega)]
    have he : 48 + (c.toNat - 48) = c.toNat := by omega
    rw [he, Char.ofNat_toNat]
  · have l₁ : (97 : Nat) ≤ c.toNat := h₁
    have l₂ : c.toNat ≤ (102 : Nat) := h₂
    have hna : ¬ (c ≤ '9') := fun hle => absurd (show c.toNat ≤ (57 : Nat) from hle) (by omega)
    have hval : hexVal c = c.toNat - 87 := by
      simp [hexVal, hna,
        decide_eq_true (show 'a' ≤ c from h₁), decide_eq_true (show c ≤ 'f' from h₂)]
    have hlow : lowerChar c = c := by
      have hz : ¬ (c ≤ 'Z') := fun hle => absurd (show c.toNat ≤ (90 : Nat) from hle) (by omega)
      simp [lowerChar, hz]
    rw [hval, hlow, toHexDigit, if_neg (by omega)]
    have he : 87 + (c.toNat - 87) = c.toNat := by omega
    rw [he, Char.ofNat_toNat]
  · have l₁ : (65 : Nat) ≤ c.toNat := h₁
    have l₂ : c.toNat ≤ (70 : Nat) := h₂
    have hna : ¬ (c ≤ '9') := fun hle => absurd (show c.toNat ≤ (57 : Nat) from hle) (by omega)
    have hnb : ¬ ('a' ≤ c) := fun hle => absurd (show (97 : Nat) ≤ c.toNat from hle) (by omega)
    have hval : hexVal c = c.toNat - 55 := by
      simp [hexVal, hna, hnb]
    have hlow : lowerChar c = Char.ofNat (c.toNat + 32) := by
      simp [lowerChar, decide_eq_true (show 'A' ≤ c from h₁),
        decide_eq_true (show c ≤ 'Z' from (show c.toNat ≤ (90 : Nat) by omega))]
    rw [hval, hlow, toHexDigit, if_neg (by omega)]
    congr 1
    omega

theorem hexVal_lt {c : Char} (h : isHexDigit c = true) : hexVal c < 16 := by
  simp only [isHexDigit, Bool.or_eq_true, Bool.and_eq_true, decide_eq_true_eq] at h
  simp only [hexVal]
  rcases h with (⟨h₁, h₂⟩ | ⟨h₁, h₂⟩) | ⟨h₁, h₂⟩
  · have l₁ : (48 : Nat) ≤ c.toNat := h₁
    have l₂ : c.toNat ≤ (57 : Nat) := h₂
    simp only [decide_eq_true h₁, decide_eq_true h₂, Bool.and_self, if_true]
    omega
  · have l₁ : (97 : Nat) ≤ c.toNat := h₁
    have l₂ : c.toNat ≤ (102 : Nat) := h₂
    have hna : ¬ (c ≤ '9') := fun hle => absurd (show c.toNat ≤ (57 : Nat) from hle) (by omega)
    simp only [decide_eq_true_eq, hna, decide_False, Bool.and_false,
      if_neg Bool.false_ne_true, decide_eq_true h₁, decide_eq_true h₂, Bool.and_self, if_true]
    omega
  · have l₁ : (65 : Nat) ≤ c.toNat := h₁
    have l₂ : c.toNat ≤ (70 : Nat) := h₂
    have hna : ¬ (c ≤ '9') := fun hle => absurd (show c.toNat ≤ (57 : Nat) from hle) (by omega)
    have hnb : ¬ ('a' ≤ c) := fun hle => absurd (show (97 : Nat) ≤ c.toNat from hle) (by omega)
    simp only [decide_eq_true_eq, hna, hnb, decide_False, Bool.and_false, Bool.false_and,
      if_neg Bool.false_ne_true]
    omega

theorem byteToHex_of_digits {c₁ c₂ : Char}
    (h₁ : isHexDigit c₁ = true) (h₂ : isHexDigit c₂ = true) :
    byteToHex (16 * hexVal c₁ + hexVal c₂) = [lowerChar c₁, lowerChar c₂] := by
  have l₁ := hexVal_lt h₁
  have l₂ := hexVal_lt h₂
  have e₁ : (16 * hexVal c₁ + hexVal c₂) / 16 = hexVal c₁ := by omega
  have e₂ : (16 * hexVal c₁ + hexVal c₂) % 16 = hexVal c₂ := by omega
  simp [byteToHex, e₁, e₂, toHexDigit_hexVal h₁, toHexDigit_hexVal h₂]

theorem hexToRGB_of_valid {c₁ c₂ c₃ c₄ c₅ c₆ : Char} (rest : List Char)
    (h : (isHexDigit c₁ && isHexDigit c₂ && isHexDigit c₃ &&
          isHexDigit c₄ && isHexDigit c₅ && isHexDigit c₆) = true) :
    hexToRGB ⟨'#' :: c₁ :: c₂ :: c₃ :: c₄ :: c₅ :: c₆ :: rest⟩ =
      some ⟨16 * hexVal c₁ + hexVal c₂, 16 * hexVal c₃ + hexVal c₄,
            16 * hexVal c₅ + hexVal c₆⟩ := by
  simp only [Bool.and_eq_true] at h
  obtain ⟨⟨⟨⟨⟨h₁, h₂⟩, h₃⟩, h₄⟩, h₅⟩, h₆⟩ := h
  show (match ('#' :: c₁ :: c₂ :: c₃ :: c₄ :: c₅ :: c₆ :: rest : List Char) with
        | c :: r => _ | [] => none) = _
  simp [scanHex2_cons₂ _ h₁ h₂, scanHex2_cons₂ _ h₃ h₄, scanHex2_cons₂ _ h₅ h₆, hexToRGB]

theorem rgbToHex_of_valid {c₁ c₂ c₃ c₄ c₅ c₆ : Char}
    (h : (isHexDigit c₁ && isHexDigit c₂ && isHexDigit c₃ &&
          isHexDigit c₄ && isHexDigit c₅ && isHexDigit c₆) = true) :
    rgbToHex ⟨16 * hexVal c₁ + hexVal c₂, 16 * hexVal c₃ + hexVal c₄,
              16 * hexVal c₅ + hexVal c₆⟩ =
      lowerStr ⟨['#', c₁, c₂, c₃, c₄, c₅, c₆]⟩ := by
  simp only [Bool.and_eq_true] at h
  obtain ⟨⟨⟨⟨⟨h₁, h₂⟩, h₃⟩, h₄⟩, h₅⟩, h₆⟩ := h
  simp [rgbToHex, lowerStr, byteToHex_of_digits h₁ h₂, byteToHex_of_digits h₃ h₄,
    byteToHex_of_digits h₅ h₆, lowerChar]

end Tuifade

namespace Tuifade.Latest

/-!
The latest revision (bottom half of `tuifade.go`): `fade` rebuilds each
parsed segment into a fresh `StyledText`, fading the background (when one is
declared and differs from the terminal background) and then the foreground
(toward the segment's own foreground if declared, else toward the terminal
foreground), always against the segment's already-faded background.
-/

/-- Error taxonomy of the embedding.  `capability` is the
"fade only supports truecolor terminals" error of the top-level `Fade`;
`badHex` is an `fmt.Sscanf` parse error surfacing from `hexToRGB`;
`nilDeref` marks a Go nil-pointer dereference (a runtime panic, modelled as
a distinguished error value). -/
inductive FadeError where
  | capability
  | badHex
  | nilDeref
deriving DecidableEq, Repr

/-- `ansiParse.ColourMode`. -/
inductive ColourMode where
  | TrueColour
  | TwoFiveSix
  | Default
deriving DecidableEq, Repr

/-- `termenv.Profile` (the values relevant to `colourModeFromProfile`). -/
inductive Profile where
  | TrueColor
  | ANSI256
  | ANSI
  | Ascii
deriving DecidableEq, Repr

/-- `ansiParse.Col`: a colour descriptor kept in a segment. -/
structure Col where
  Id : Nat
  Name : String
  Hex : String
  Rgb : Tuifade.Rgb
  Hsl : Tuifade.Hsl
deriving DecidableEq, Repr

/-- The zero value `&ansiParse.Col{}` allocated by `updateSegmentForegroundColours`
when a segment has no foreground descriptor. -/
def emptyCol : Col := ⟨0, "", "", ⟨0, 0, 0⟩, ⟨0, 0, 0⟩⟩

/-- `ansiParse.StyledText`: one parsed segment.  `FgCol`/`BgCol` are optional
pointers, modelled by `Option`; `Style` is an opaque flag word. -/
structure StyledText where
  Label : String
  FgCol : Option Col
  BgCol : Option Col
  Style : Nat
  ColourMode : ColourMode
  Offset : Nat
  Len : Nat
deriving DecidableEq, Repr

/-- The `Result` field of an `Interpolation`. -/
structure InterpolationResult where
  Hex : String
  Rgb : Tuifade.Rgb
  Hsl : Tuifade.Hsl
deriving DecidableEq, Repr

/-- The record returned by the latest revision's `Interpolate`. -/
structure Interpolation where
  OriginalForeground : String
  OriginalBackground : String
  Interpolated : ℚ
  Result : InterpolationResult
deriving DecidableEq, Repr

/-- Latest-revision `Interpolate`: parse, clamp, interpolate each channel,
and return hex, RGB and HSL forms of the result.  The HSL stored here is
go-colorful's raw `Hsl()` output (not rescaled).  `d` is go-colorful's
`delinearize`. -/
def Interpolate (d : ℚ → ℚ) (hexBackground hexForeground : String)
    (interpolation : ℚ) : Except FadeError Interpolation :=
  match hexToRGB hexBackground with
  | none => .error .badHex
  | some background =>
    match hexToRGB hexForeground with
    | none => .error .badHex
    | some foreground =>
      let i := clampFactor interpolation
      let bgWeight := 1 - i
      let fgWeight := i
      let r := interpolateChannel background.R foreground.R bgWeight fgWeight
      let g := interpolateChannel background.G foreground.G bgWeight fgWeight
      let b := interpolateChannel background.B foreground.B bgWeight fgWeight
      let hsl := rgbToHSL d ⟨r, g, b⟩
      .ok { OriginalForeground := hexForeground
            OriginalBackground := hexBackground
            Interpolated := interpolation
            Result := { Hex := rgbToHex ⟨r, g, b⟩
                        Rgb := ⟨r, g, b⟩
                        Hsl := ⟨hsl.1, hsl.2.1, hsl.2.2⟩ } }

/-- `updateSegmentForegroundColours`: replace the foreground descriptor with
a fresh one carrying the interpolated colours; `Id` and `Name` are copied
from the existing foreground descriptor (a fresh zero `Col` is allocated
first when there is none). -/
def updateSegmentForegroundColours (segment : StyledText)
    (colours : InterpolationResult) : StyledText :=
  let fg := segment.FgCol.getD emptyCol
  { segment with
    FgCol := some { Id := fg.Id, Name := fg.Name, Hex := colours.Hex,
                    Rgb := ⟨colours.Rgb.R, colours.Rgb.G, colours.Rgb.B⟩,
                    Hsl := ⟨colours.Hsl.H, colours.Hsl.S, colours.Hsl.L⟩ } }

/-- `updateSegmentBackgroundColours`: do nothing if the segment has no
background descriptor; otherwise replace it with a fresh one carrying the
interpolated colours.  `Id` and `Name` are read from `segment.FgCol`
without a nil check — when `FgCol` is nil, the Go code panics
(`.error .nilDeref`). -/
def updateSegmentBackgroundColours (segment : StyledText)
    (colours : InterpolationResult) : Except FadeError StyledText :=
  match segment.BgCol with
  | none => .ok segment
  | some _ =>
    match segment.FgCol with
    | none => .error .nilDeref
    | some fg =>
      .ok { segment with
            BgCol := some { Id := fg.Id, Name := fg.Name, Hex := colours.Hex,
                            Rgb := ⟨colours.Rgb.R, colours.Rgb.G, colours.Rgb.B⟩,
                            Hsl := ⟨colours.Hsl.H, colours.Hsl.S, colours.Hsl.L⟩ } }

/-- The body of the latest-revision `fade` loop, for one parsed segment.
Both arms of the Go foreground branch call `Interpolate` followed by
`updateSegmentForegroundColours`, differing only in the interpolation
target, which is factored out here into one match. -/
def processSegment (d : ℚ → ℚ) (termBg termFg : String) (mode : ColourMode)
    (interpolationAmount : ℚ) (originalSegment : StyledText) :
    Except FadeError StyledText :=
  let seg₀ : StyledText :=
    { Label := originalSegment.Label
      Style := originalSegment.Style
      ColourMode := mode
      Offset := originalSegment.Offset
      Len := originalSegment.Len
      FgCol := originalSegment.FgCol
      BgCol := originalSegment.BgCol }
  let bgStep : Except FadeError (StyledText × String) :=
    match originalSegment.BgCol with
    | some bc =>
      if bc.Hex ≠ "" ∧ bc.Hex ≠ termBg then
        match Interpolate d termBg bc.Hex interpolationAmount with
        | .error e => .error e
        | .ok interpolation =>
          match updateSegmentBackgroundColours seg₀ interpolation.Result with
          | .error e => .error e
          | .ok seg₁ => .ok (seg₁, interpolation.Result.Hex)
      else .ok (seg₀, termBg)
    | none => .ok (seg₀, termBg)
  match bgStep with
  | .error e => .error e
  | .ok (seg₁, bgCol) =>
    let fgHex : String :=
      match originalSegment.FgCol with
      | some fc => if fc.Hex ≠ "" then fc.Hex else termFg
      | none => termFg
    match Interpolate d bgCol fgHex interpolationAmount with
    | .error e => .error e
    | .ok interpolation =>
      .ok (updateSegmentForegroundColours seg₁ interpolation.Result)

/-- Latest-revision `fade`, on the parsed segment sequence (the
parse/serialize collaborator is external to the repository). -/
def fade (d : ℚ → ℚ) (termBg termFg : String) (mode : ColourMode)
    (interpolationAmount : ℚ) :
    List StyledText → Except FadeError (List StyledText)
  | [] => .ok []
  | segment :: rest =>
    match processSegment d termBg termFg mode interpolationAmount segment with
    | .error e => .error e
    | .ok fadedSegment =>
      match fade d termBg termFg mode interpolationAmount rest with
      | .error e => .error e
      | .ok fadedRest => .ok (fadedSegment :: fadedRest)

/-- `colourModeFromProfile`. -/
def colourModeFromProfile (profile : Profile) : ColourMode :=
  if profile = Profile.TrueColor then ColourMode.TrueColour
  else if profile = Profile.ANSI256 then ColourMode.TwoFiveSix
  else ColourMode.Default

/-- The ambient terminal state queried by the top-level `Fade` via termenv. -/
structure TermEnv where
  profile : Profile
  background : String
  foreground : String

/-- Top-level `Fade`: if the terminal profile is not truecolor, return the
original content together with the capability error; otherwise parse and
fade.  `parse` and `serialize` stand for the external go-ansi-parser
collaborator. -/
def Fade (d : ℚ → ℚ) (parse : String → List StyledText)
    (serialize : List StyledText → String) (env : TermEnv)
    (content : String) (interpolation : ℚ) : String × Option FadeError :=
  if env.profile ≠ Profile.TrueColor then
    (content, some FadeError.capability)
  else
    match fade d env.background env.foreground (colourModeFromProfile env.profile)
        interpolation (parse content) with
    | .ok segments => (serialize segments, none)
    | .error e => ("", some e)

/-! Claim-side descriptions of the foreground-resolution chain, phrased
from the spec's algorithm. -/

/-- The foreground interpolation target named by the spec: the segment's
declared foreground colour when there is one, else the terminal default. -/
def fgTarget (termFg : String) (orig : StyledText) : String :=
  match orig.FgCol with
  | some fc => if fc.Hex ≠ "" then fc.Hex else termFg
  | none => termFg

/-- Hex value of a successful `Interpolate` call, `none` on failure. -/
def interpHex (d : ℚ → ℚ) (bg fg : String) (amount : ℚ) : Option String :=
  match Interpolate d bg fg amount with
  | .ok i => some i.Result.Hex
  | .error _ => none

/-- The spec's `effectiveBg`: the faded segment background when the segment
declares an explicit background different from the terminal background,
otherwise the terminal background itself. -/
def effectiveBgHex (d : ℚ → ℚ) (termBg : String) (amount : ℚ)
    (orig : StyledText) : Option String :=
  match orig.BgCol with
  | some bc =>
    if bc.Hex ≠ "" ∧ bc.Hex ≠ termBg then interpHex d termBg bc.Hex amount
    else some termBg
  | none => some termBg

end Tuifade.Latest

namespace Tuifade.Cached

/-!
The caching revision (`v0.0.5`): `Interpolate` consults a global cache
keyed by `fmt.Sprintf("%s_%s_%.6f", background, foreground, interpolation)`
before computing, and hex→RGB conversions go through a second global cache
keyed by the hex string.  The mutex-guarded Go caches are modelled
single-threaded as explicit state threading.
-/

/-- Association-list lookup (the Go map read). -/
def lookupKey {α β : Type} [DecidableEq α] : List (α × β) → α → Option β
  | [], _ => none
  | (k, v) :: rest, key => if k = key then some v else lookupKey rest key

/-- The `%.6f` rendering of the factor used inside `generateCacheKey`:
sign, then the magnitude rounded to six decimal places, zero-padded.
Two factors produce the same rendering exactly when they have the same
sign test and their magnitudes round to the same six-decimal value.
(No `float64` is an exact tie at the sixth decimal — a tie would need the
factor `5^6` in a binary fraction's denominator — so Go's
round-half-to-even decimal conversion and this rounding agree on every
float input; the one divergence is that Go prints `"-0.000000"` for tiny
negative floats whereas `ℚ` has no negative zero, a corner no theorem
below touches.) -/
def renderFactor6 (f : ℚ) : String :=
  let q := (goRound (|f| * 1000000)).toNat
  let frac := Nat.repr (q % 1000000)
  (if f < 0 then "-" else "") ++ Nat.repr (q / 1000000) ++ "." ++
    (String.mk (List.replicate (6 - frac.length) '0') ++ frac)

/-- `generateCacheKey`: `fmt.Sprintf("%s_%s_%.6f", background, foreground,
interpolation)` — a bare underscore-joined concatenation, NOT an injective
encoding of the triple: different argument pairs can produce the same key
string. -/
def generateCacheKey (background foreground : String) (interpolation : ℚ) : String :=
  background ++ "_" ++ foreground ++ "_" ++ renderFactor6 interpolation

/-- The global colour cache (`rgb` map) and interpolation cache (keyed by
the `generateCacheKey` string, as in Go). -/
structure CacheState where
  rgb : List (String × Tuifade.Rgb)
  interp : List (String × String)
deriving DecidableEq, Repr

/-- `colourCache.getRGB`: return the cached conversion, or compute
`hexToRGB` and cache it (errors are not cached). -/
def getRGB (st : CacheState) (hex : String) : Option Tuifade.Rgb × CacheState :=
  match lookupKey st.rgb hex with
  | some rgb => (some rgb, st)
  | none =>
    match hexToRGB hex with
    | some rgb => (some rgb, { st with rgb := (hex, rgb) :: st.rgb })
    | none => (none, st)

/-- Caching-revision `Interpolate`: check the interpolation cache, else
compute as revision 1 does (via the RGB cache) and store the result. -/
def Interpolate (st : CacheState) (hexBackground hexForeground : String)
    (interpolation : ℚ) : Option String × CacheState :=
  match lookupKey st.interp (generateCacheKey hexBackground hexForeground interpolation) with
  | some result => (some result, st)
  | none =>
    match getRGB st hexBackground with
    | (none, st₁) => (none, st₁)
    | (some background, st₁) =>
      match getRGB st₁ hexForeground with
      | (none, st₂) => (none, st₂)
      | (some foreground, st₂) =>
        let i := clampFactor interpolation
        let bgWeight := 1 - i
        let fgWeight := i
        let r := interpolateChannel background.R foreground.R bgWeight fgWeight
        let g := interpolateChannel background.G foreground.G bgWeight fgWeight
        let b := interpolateChannel background.B foreground.B bgWeight fgWeight
        let result := rgbToHex ⟨r, g, b⟩
        (some result,
         { st₂ with interp :=
            (generateCacheKey hexBackground hexForeground interpolation, result)
              :: st₂.interp })

end Tuifade.Cached

namespace Tuifade

/-! ## Numerical lemmas about the interpolation core -/

theorem clampFactor_nonneg (f : ℚ) : 0 ≤ clampFactor f := by
  unfold clampFactor
  split
  · exact le_refl 0
  split
  · exact zero_le_one
  · linarith [not_lt.mp (by assumption : ¬ f < 0)]

theorem clampFactor_le_one (f : ℚ) : clampFactor f ≤ 1 := by
  unfold clampFactor
  split
  · exact zero_le_one
  split
  · exact le_refl 1
  · linarith [not_lt.mp (by assumption : ¬ f > 1)]

theorem clampFactor_of_nonpos {f : ℚ} (h : f < 0) : clampFactor f = 0 := by
  simp [clampFactor, h]

theorem clampFactor_of_ge_one {f : ℚ} (h : 1 < f) : clampFactor f = 1 := by
  have h0 : ¬ f < 0 := by linarith
  simp [clampFactor, h0, h]

theorem clampFactor_of_mem {f : ℚ} (h0 : 0 ≤ f) (h1 : f ≤ 1) : clampFactor f = f := by
  simp [clampFactor, not_lt.mpr h0, not_lt.mpr h1]

theorem goRound_natCast (n : Nat) : goRound (n : ℚ) = n := by
  have h : (0 : ℚ) ≤ n := Nat.cast_nonneg n
  rw [goRound, if_pos h, Int.floor_eq_iff]
  constructor
  · push_cast
    linarith
  · push_cast
    linarith

theorem interpolateChannel_self (c : Nat) (f : ℚ) :
    interpolateChannel c c (1 - f) f = c := by
  rw [interpolateChannel, show ((c : ℚ) * (1 - f) + (c : ℚ) * f) = (c : ℚ) by ring,
    goRound_natCast, Int.toNat_natCast]

theorem interpolateChannel_left (bg fg : Nat) :
    interpolateChannel bg fg 1 0 = bg := by
  rw [interpolateChannel, show ((bg : ℚ) * 1 + (fg : ℚ) * 0) = (bg : ℚ) by ring,
    goRound_natCast, Int.toNat_natCast]

theorem interpolateChannel_right (bg fg : Nat) :
    interpolateChannel bg fg 0 1 = fg := by
  rw [interpolateChannel, show ((bg : ℚ) * 0 + (fg : ℚ) * 1) = (fg : ℚ) by ring,
    goRound_natCast, Int.toNat_natCast]

theorem interpolateChannel_round {bg fg : Nat} {w₁ w₂ : ℚ}
    (hw₁ : 0 ≤ w₁) (hw₂ : 0 ≤ w₂) :
    interpolateChannel bg fg w₁ w₂ =
      (⌊(bg : ℚ) * w₁ + (fg : ℚ) * w₂ + 1/2⌋).toNat := by
  have hx : (0 : ℚ) ≤ (bg : ℚ) * w₁ + (fg : ℚ) * w₂ :=
    add_nonneg (mul_nonneg (Nat.cast_nonneg bg) hw₁) (mul_nonneg (Nat.cast_nonneg fg) hw₂)
  rw [interpolateChannel, goRound, if_pos hx]

theorem interpolateChannel_le {bg fg : Nat} {f : ℚ}
    (hbg : bg ≤ 255) (hfg : fg ≤ 255) (h0 : 0 ≤ f) (h1 : f ≤ 1) :
    interpolateChannel bg fg (1 - f) f ≤ 255 := by
  have hx : (bg : ℚ) * (1 - f) + (fg : ℚ) * f ≤ 255 := by
    have hb : (bg : ℚ) ≤ 255 := by exact_mod_cast hbg
    have hf : (fg : ℚ) ≤ 255 := by exact_mod_cast hfg
    nlinarith
  have hnn : (0 : ℚ) ≤ (bg : ℚ) * (1 - f) + (fg : ℚ) * f :=
    add_nonneg (mul_nonneg (Nat.cast_nonneg bg) (by linarith))
      (mul_nonneg (Nat.cast_nonneg fg) h0)
  rw [interpolateChannel, goRound, if_pos hnn]
  have hfl : ⌊(bg : ℚ) * (1 - f) + (fg : ℚ) * f + 1/2⌋ ≤ 255 := by
    have : ((bg : ℚ) * (1 - f) + (fg : ℚ) * f + 1/2) < 256 := by linarith
    exact Int.lt_add_one_iff.mp (by exact_mod_cast Int.floor_lt.mpr (by push_cast; linarith))
  omega

theorem Latest.Interpolate_ok_of_parse {d : ℚ → ℚ} {a : ℚ} {bg fg : String}
    {rb rf : Rgb} (hb : hexToRGB bg = some rb) (hf : hexToRGB fg = some rf) :
    ∃ i, Latest.Interpolate d bg fg a = .ok i := by
  unfold Latest.Interpolate
  rw [hb, hf]
  exact ⟨_, rfl⟩

end Tuifade

namespace Tuifade

/-! ## Claim C10 -/

/-- Claim C10: "fade never dereferences a nil pointer: in the latest
revision, processing a parsed segment that declares an explicit background
colour (different from the terminal background) while having a nil
foreground descriptor completes safely."  This is false of the code: on
such a segment `updateSegmentBackgroundColours` reads `segment.FgCol.Id`
through the nil foreground pointer, a runtime panic, modelled here as the
distinguished `nilDeref` error. -/
theorem fade_nil_foreground_crash :
    Latest.processSegment id "#000000" "#ffffff" Latest.ColourMode.TrueColour (1/2)
      { Label := "x", FgCol := none,
        BgCol := some ⟨0, "", "#ff0000", ⟨255, 0, 0⟩, ⟨0, 100, 50⟩⟩,
        Style := 0, ColourMode := Latest.ColourMode.Default, Offset := 0, Len := 1 }
      = .error Latest.FadeError.nilDeref := by
  obtain ⟨i, hi⟩ := Latest.Interpolate_ok_of_parse (d := id) (a := 1/2)
    (show hexToRGB "#000000" = some ⟨0, 0, 0⟩ by decide)
    (show hexToRGB "#ff0000" = some ⟨255, 0, 0⟩ by decide)
  simp only [one_div] at hi
  simp [Latest.processSegment, hi, Latest.updateSegmentBackgroundColours]

/-! ## Claim C4 -/

/-- Counterexample to claim C4: `hexToRGB` was claimed to fail on every
string other than `#` + six hex digits, in particular on wrong-length
strings; but the five-digit string `"#12345"` parses successfully (the
scanner's `%02x` width is a maximum, so the third channel is read from the
single digit `5`). -/
theorem hexToRGB_grammar_counterexample :
    hexToRGB "#12345" = some ⟨18, 52, 5⟩ ∧ "#12345".length ≠ 7 := by
  constructor
  · decide
  · decide

/-- Claim C4 as amended: `hexToRGB` accepts every string beginning with `#`
followed by six hex digits regardless of any trailing characters, and also
accepts shorter greedy digit groupings such as five-digit strings; it
rejects the empty string, any string not starting with `#` (such as
`"ff0000"`), and any string in which three hex-digit groups cannot be
scanned (such as `"#f00"` and `"#gg0000"`). -/
theorem hexToRGB_acceptance :
    (∀ (c₁ c₂ c₃ c₄ c₅ c₆ : Char) (rest : List Char),
      (isHexDigit c₁ && isHexDigit c₂ && isHexDigit c₃ &&
       isHexDigit c₄ && isHexDigit c₅ && isHexDigit c₆) = true →
      hexToRGB ⟨'#' :: c₁ :: c₂ :: c₃ :: c₄ :: c₅ :: c₆ :: rest⟩ =
        some ⟨16 * hexVal c₁ + hexVal c₂, 16 * hexVal c₃ + hexVal c₄,
              16 * hexVal c₅ + hexVal c₆⟩) ∧
    (∀ (s : String), (∀ rest, s.data ≠ '#' :: rest) → hexToRGB s = none) ∧
    hexToRGB "" = none ∧ hexToRGB "ff0000" = none ∧
    hexToRGB "#f00" = none ∧ hexToRGB "#gg0000" = none ∧
    hexToRGB "#12345" = some ⟨18, 52, 5⟩ := by
  refine ⟨?_, ?_, by decide, by decide, by decide, by decide, by decide⟩
  · intro c₁ c₂ c₃ c₄ c₅ c₆ rest h
    exact hexToRGB_of_valid rest h
  · intro s h
    rcases hs : s.data with _ | ⟨c, rest⟩
    · simp [hexToRGB, hs]
    · have hc : ¬ (c = '#') := fun hceq => h rest (by rw [hs, hceq])
      simp [hexToRGB, hs, hc]

/-- Witness for the amended claim C4 at a concrete mixed-case input. -/
theorem hexToRGB_acceptance_witness :
    (isHexDigit '1' && isHexDigit 'a' && isHexDigit '2' &&
     isHexDigit 'B' && isHexDigit '3' && isHexDigit 'c') = true ∧
    hexToRGB ⟨'#' :: '1' :: 'a' :: '2' :: 'B' :: '3' :: 'c' :: []⟩ =
      some ⟨16 * hexVal '1' + hexVal 'a', 16 * hexVal '2' + hexVal 'B',
            16 * hexVal '3' + hexVal 'c'⟩ :=
  ⟨by decide, hexToRGB_acceptance.1 '1' 'a' '2' 'B' '3' 'c' [] (by decide)⟩

/-! ## Claim C5 -/

/-- The go-colorful `Hsl()` hue of a pure green colour `(0, γ, 0)` with
`γ > 0` is 120 degrees, independently of the exact value of `γ` (so the
result does not depend on the floating-point error of `delinearize(1)`). -/
theorem hslOfColor_fst_green {γ : ℚ} (hγ : 0 < γ) : (hslOfColor 0 γ 0).1 = 120 := by
  have h1 : min (min (0 : ℚ) γ) 0 = 0 := by rw [min_eq_left hγ.le, min_self]
  have h2 : max (max (0 : ℚ) γ) 0 = γ := by rw [max_eq_right hγ.le, max_eq_left hγ.le]
  simp only [hslOfColor, h1, h2]
  rw [if_neg hγ.ne]
  simp only [if_neg hγ.ne', if_pos rfl]
  norm_num

/-- Claim C5 said the HSL derived from a valid hex colour has hue in
`[0,360)`.  The code (`hexToHSL` / `getHSL`) multiplies go-colorful's hue —
already in degrees — by a further 360, so pure green `#00ff00` gets hue
43200, far outside `[0,360)`; this holds for any delinearization `d` with
`d 0 = 0` and `d 1 > 0`, which the real go-colorful function satisfies.
The repository's own test data records 43200, while the code's comment
claims the target range is 0–360. -/
theorem hexToHSL_hue_out_of_range (d : ℚ → ℚ) (h0 : d 0 = 0) (h1 : 0 < d 1) :
    (hexToHSL d "#00ff00").map Hsl.H = some 43200 ∧ ¬ ((43200 : ℚ) < 360) := by
  refine ⟨?_, by norm_num⟩
  have hparse : hexToRGB "#00ff00" = some ⟨0, 255, 0⟩ := by decide
  have e0 : (((0 : ℕ) : ℚ)) / 255 = 0 := by norm_num
  have e1 : (((255 : ℕ) : ℚ)) / 255 = 1 := by norm_num
  simp only [hexToHSL, hparse, rgbToHSL, e0, e1, h0, h1]
  rw [hslOfColor_fst_green h1]
  norm_num

/-- Witness for `hexToHSL_hue_out_of_range` at the identity
delinearization. -/
theorem hexToHSL_hue_out_of_range_witness :
    (id (0 : ℚ) = 0) ∧ (0 < id (1 : ℚ)) ∧
    ((hexToHSL id "#00ff00").map Hsl.H = some 43200 ∧ ¬ ((43200 : ℚ) < 360)) :=
  ⟨rfl, by norm_num, hexToHSL_hue_out_of_range id rfl (by norm_num)⟩

end Tuifade

namespace Tuifade

/-! ## Claim C3 -/

/-- Claim C3: round-trip law.  `hexToRGB (rgbToHex c) = c` for every RGB
triple with channels in `[0,255]`; for every valid hex string `h` (`#` plus
six hex digits, any case) `hexToRGB` succeeds and `rgbToHex` of the result
is `h` lower-cased; and `rgbToHex` always produces exactly the 7-character
lower-case zero-padded `#rrggbb` form. -/
theorem hex_rgb_roundtrip :
    (∀ r g b : Nat, r < 256 → g < 256 → b < 256 →
      hexToRGB (rgbToHex ⟨r, g, b⟩) = some ⟨r, g, b⟩) ∧
    (∀ h : String, ValidHex h → ∃ rgb, hexToRGB h = some rgb ∧ rgbToHex rgb = lowerStr h) ∧
    (∀ r g b : Nat, r < 256 → g < 256 → b < 256 →
      (rgbToHex ⟨r, g, b⟩).length = 7 ∧
      (rgbToHex ⟨r, g, b⟩).data.head? = some '#' ∧
      ∀ c ∈ (rgbToHex ⟨r, g, b⟩).data.tail, isHexDigit c = true ∧ lowerChar c = c) := by
  refine ⟨fun r g b hr hg hb => hexToRGB_rgbToHex hr hg hb, ?_, ?_⟩
  · intro h hv
    obtain ⟨c₁, c₂, c₃, c₄, c₅, c₆, hdata, hdig⟩ := hv
    obtain ⟨l⟩ := h
    simp only at hdata
    subst hdata
    refine ⟨_, hexToRGB_of_valid [] hdig, ?_⟩
    exact rgbToHex_of_valid hdig
  · intro r g b hr hg hb
    refine ⟨by simp [rgbToHex, byteToHex, String.length], by simp [rgbToHex], ?_⟩
    intro c hc
    have h1 : r / 16 < 16 := by omega
    have h2 : r % 16 < 16 := Nat.mod_lt _ (by norm_num)
    have h3 : g / 16 < 16 := by omega
    have h4 : g % 16 < 16 := Nat.mod_lt _ (by norm_num)
    have h5 : b / 16 < 16 := by omega
    have h6 : b % 16 < 16 := Nat.mod_lt _ (by norm_num)
    simp only [rgbToHex, byteToHex, List.cons_append, List.nil_append, List.tail_cons,
      List.mem_cons, List.mem_append, List.not_mem_nil, or_false] at hc
    rcases hc with hc | hc | hc | hc | hc | hc <;> subst hc <;>
      first
      | exact ⟨isHexDigit_toHexDigit h1, lowerChar_toHexDigit h1⟩
      | exact ⟨isHexDigit_toHexDigit h2, lowerChar_toHexDigit h2⟩
      | exact ⟨isHexDigit_toHexDigit h3, lowerChar_toHexDigit h3⟩
      | exact ⟨isHexDigit_toHexDigit h4, lowerChar_toHexDigit h4⟩
      | exact ⟨isHexDigit_toHexDigit h5, lowerChar_toHexDigit h5⟩
      | exact ⟨isHexDigit_toHexDigit h6, lowerChar_toHexDigit h6⟩

/-! ## Claims C7 and C2 -/

theorem Rev1.Interpolate_eval {bg fg : String} {rb rf : Rgb}
    (hb : hexToRGB bg = some rb) (hf : hexToRGB fg = some rf) (f : ℚ) :
    Rev1.Interpolate bg fg f =
      some (rgbToHex ⟨interpolateChannel rb.R rf.R (1 - clampFactor f) (clampFactor f),
                      interpolateChannel rb.G rf.G (1 - clampFactor f) (clampFactor f),
                      interpolateChannel rb.B rf.B (1 - clampFactor f) (clampFactor f)⟩) := by
  unfold Rev1.Interpolate
  rw [hb, hf]

theorem interpolateChannel_mid_up : interpolateChannel 0 255 (1/2) (1/2) = 128 := by
  norm_num [interpolateChannel, goRound]
  rfl

theorem interpolateChannel_mid_down :
    interpolateChannel 255 0 (1 - clampFactor (1/2)) (clampFactor (1/2)) = 128 := by
  rw [clampFactor_of_mem (by norm_num) (by norm_num)]
  norm_num [interpolateChannel, goRound]
  rfl

theorem interpolateChannel_mid_zero :
    interpolateChannel 0 0 (1 - clampFactor (1/2)) (clampFactor (1/2)) = 0 := by
  rw [clampFactor_of_mem (by norm_num) (by norm_num)]
  norm_num [interpolateChannel, goRound]

theorem interpolateChannel_mid_half :
    interpolateChannel 0 255 (1 - clampFactor (1/2)) (clampFactor (1/2)) = 128 := by
  rw [clampFactor_of_mem (by norm_num) (by norm_num)]
  norm_num [interpolateChannel, goRound]
  rfl

/-- Counterexample to claim C7: `Interpolate(c, c, f) = c` fails for
upper-case `c`, because `rgbToHex` always prints lower-case; at
`c = "#ABCDEF"`, `f = 1/2` the result is the lower-cased form. -/
theorem interpolate_idempotence_counterexample :
    Rev1.Interpolate "#ABCDEF" "#ABCDEF" (1/2) = some "#abcdef" ∧
    Rev1.Interpolate "#ABCDEF" "#ABCDEF" (1/2) ≠ some "#ABCDEF" := by
  have hp : hexToRGB "#ABCDEF" = some ⟨171, 205, 239⟩ := by decide
  rw [Rev1.Interpolate_eval hp hp]
  simp only [interpolateChannel_self]
  exact ⟨by decide, by decide⟩

/-- Claim C7 as amended: each channel of `Interpolate` is
`round(bg·bgWeight + fg·fgWeight)` with `bgWeight = 1 - factor`,
`fgWeight = factor` after clamping, rounding half up (`127.5 → 128`,
`toNat ∘ floor (· + 1/2)` on the nonnegative domain) and never exceeding
255; `Interpolate("#ff0000", "#0000ff", 0.5) = "#800080"` and
`Interpolate("#000000", "#ffffff", 0.5) = "#808080"`; and
`Interpolate(c, c, f)` for `f ∈ [0,1]` equals the lower-case normal form of
`c` (hence `c` itself whenever `c` is lower-case). -/
theorem interpolate_channel_arithmetic :
    (∀ (bg fg : Nat) (f : ℚ), bg ≤ 255 → fg ≤ 255 →
      interpolateChannel bg fg (1 - clampFactor f) (clampFactor f) =
        (⌊(bg : ℚ) * (1 - clampFactor f) + (fg : ℚ) * clampFactor f + 1/2⌋).toNat ∧
      interpolateChannel bg fg (1 - clampFactor f) (clampFactor f) ≤ 255) ∧
    interpolateChannel 0 255 (1/2) (1/2) = 128 ∧
    Rev1.Interpolate "#ff0000" "#0000ff" (1/2) = some "#800080" ∧
    Rev1.Interpolate "#000000" "#ffffff" (1/2) = some "#808080" ∧
    (∀ (h : String), ValidHex h → ∀ f : ℚ, 0 ≤ f → f ≤ 1 →
      Rev1.Interpolate h h f = some (lowerStr h)) := by
  refine ⟨?_, interpolateChannel_mid_up, ?_, ?_, ?_⟩
  · intro bg fg f hbg hfg
    refine ⟨interpolateChannel_round (by linarith [clampFactor_le_one f])
      (clampFactor_nonneg f), interpolateChannel_le hbg hfg
      (clampFactor_nonneg f) (clampFactor_le_one f)⟩
  · rw [Rev1.Interpolate_eval (show hexToRGB "#ff0000" = some ⟨255, 0, 0⟩ by decide)
      (show hexToRGB "#0000ff" = some ⟨0, 0, 255⟩ by decide)]
    rw [interpolateChannel_mid_down, interpolateChannel_mid_zero, interpolateChannel_mid_half]
    decide
  · rw [Rev1.Interpolate_eval (show hexToRGB "#000000" = some ⟨0, 0, 0⟩ by decide)
      (show hexToRGB "#ffffff" = some ⟨255, 255, 255⟩ by decide)]
    rw [interpolateChannel_mid_half]
    decide
  · intro h hv f _ _
    obtain ⟨c₁, c₂, c₃, c₄, c₅, c₆, hdata, hdig⟩ := hv
    obtain ⟨l⟩ := h
    simp only at hdata
    subst hdata
    rw [Rev1.Interpolate_eval (hexToRGB_of_valid [] hdig) (hexToRGB_of_valid [] hdig)]
    simp only [interpolateChannel_self]
    rw [rgbToHex_of_valid hdig]

/-- Witness for `interpolate_channel_arithmetic`: the channel formula at an
out-of-range factor (clamped) and amended idempotence at a mixed-case
colour. -/
theorem interpolate_channel_arithmetic_witness :
    ((10 : Nat) ≤ 255 ∧ (20 : Nat) ≤ 255 ∧
      (interpolateChannel 10 20 (1 - clampFactor 2) (clampFactor 2) =
        (⌊(10 : ℚ) * (1 - clampFactor 2) + (20 : ℚ) * clampFactor 2 + 1/2⌋).toNat ∧
       interpolateChannel 10 20 (1 - clampFactor 2) (clampFactor 2) ≤ 255)) ∧
    (ValidHex "#AbCdEf" ∧ (0 : ℚ) ≤ 1/3 ∧ (1/3 : ℚ) ≤ 1 ∧
      Rev1.Interpolate "#AbCdEf" "#AbCdEf" (1/3) = some (lowerStr "#AbCdEf")) := by
  have hv : ValidHex "#AbCdEf" := ⟨'A', 'b', 'C', 'd', 'E', 'f', by decide, by decide⟩
  exact ⟨⟨by norm_num, by norm_num,
    interpolate_channel_arithmetic.1 10 20 2 (by norm_num) (by norm_num)⟩,
    ⟨hv, by norm_num, by norm_num,
      interpolate_channel_arithmetic.2.2.2.2 "#AbCdEf" hv (1/3) (by norm_num) (by norm_num)⟩⟩

/-- Counterexample to claim C2: `Interpolate(bg, fg, 0)` was claimed to
return `bg`; for the upper-case valid colour `"#FF0000"` it returns the
lower-cased `"#ff0000"` instead. -/
theorem interpolate_boundary_case_counterexample :
    Rev1.Interpolate "#FF0000" "#0000ff" 0 = some "#ff0000" ∧
    Rev1.Interpolate "#FF0000" "#0000ff" 0 ≠ some "#FF0000" := by
  have hb : hexToRGB "#FF0000" = some ⟨255, 0, 0⟩ := by decide
  have hf : hexToRGB "#0000ff" = some ⟨0, 0, 255⟩ := by decide
  rw [Rev1.Interpolate_eval hb hf, clampFactor_of_mem le_rfl zero_le_one,
    show (1 : ℚ) - 0 = 1 by norm_num]
  simp only [interpolateChannel_left]
  exact ⟨by decide, by decide⟩

/-- Claim C2 as amended: for valid hex colours,
`Interpolate(bg, fg, 0)` returns the lower-case normal form of `bg` and
`Interpolate(bg, fg, 1)` that of `fg` (equal to `bg`/`fg` verbatim when
they are lower-case); any factor below 0 gives the result at 0, any factor
above 1 the result at 1, and no factor value ever makes `Interpolate`
fail. -/
theorem interpolate_boundary_clamp :
    ∀ bg fg : String, ValidHex bg → ValidHex fg →
      Rev1.Interpolate bg fg 0 = some (lowerStr bg) ∧
      Rev1.Interpolate bg fg 1 = some (lowerStr fg) ∧
      (∀ f : ℚ, f < 0 → Rev1.Interpolate bg fg f = Rev1.Interpolate bg fg 0) ∧
      (∀ f : ℚ, 1 < f → Rev1.Interpolate bg fg f = Rev1.Interpolate bg fg 1) ∧
      (∀ f : ℚ, ∃ s, Rev1.Interpolate bg fg f = some s) := by
  intro bg fg hvb hvf
  obtain ⟨b₁, b₂, b₃, b₄, b₅, b₆, hbdata, hbdig⟩ := hvb
  obtain ⟨g₁, g₂, g₃, g₄, g₅, g₆, hgdata, hgdig⟩ := hvf
  obtain ⟨lb⟩ := bg
  obtain ⟨lg⟩ := fg
  simp only at hbdata hgdata
  subst hbdata
  subst hgdata
  have hb := hexToRGB_of_valid [] hbdig
  have hf := hexToRGB_of_valid [] hgdig
  refine ⟨?_, ?_, ?_, ?_, ?_⟩
  · rw [Rev1.Interpolate_eval hb hf, clampFactor_of_mem le_rfl zero_le_one,
      show (1 : ℚ) - 0 = 1 by norm_num]
    simp only [interpolateChannel_left]
    rw [rgbToHex_of_valid hbdig]
  · rw [Rev1.Interpolate_eval hb hf, clampFactor_of_mem zero_le_one le_rfl,
      show (1 : ℚ) - 1 = 0 by norm_num]
    simp only [interpolateChannel_right]
    rw [rgbToHex_of_valid hgdig]
  · intro f hfneg
    rw [Rev1.Interpolate_eval hb hf, Rev1.Interpolate_eval hb hf,
      clampFactor_of_nonpos hfneg, clampFactor_of_mem le_rfl zero_le_one]
  · intro f hfgt
    rw [Rev1.Interpolate_eval hb hf, Rev1.Interpolate_eval hb hf,
      clampFactor_of_ge_one hfgt, clampFactor_of_mem zero_le_one le_rfl]
  · intro f
    exact ⟨_, Rev1.Interpolate_eval hb hf f⟩

/-- Witness for `interpolate_boundary_clamp` at concrete colours, including
a clamped negative factor. -/
theorem interpolate_boundary_clamp_witness :
    ValidHex "#FF0000" ∧ ValidHex "#00ff00" ∧
    Rev1.Interpolate "#FF0000" "#00ff00" 0 = some (lowerStr "#FF0000") ∧
    ((-3 : ℚ) < 0 ∧
      Rev1.Interpolate "#FF0000" "#00ff00" (-3) =
        Rev1.Interpolate "#FF0000" "#00ff00" 0) := by
  have hvb : ValidHex "#FF0000" := ⟨'F', 'F', '0', '0', '0', '0', by decide, by decide⟩
  have hvf : ValidHex "#00ff00" := ⟨'0', '0', 'f', 'f', '0', '0', by decide, by decide⟩
  exact ⟨hvb, hvf, (interpolate_boundary_clamp _ _ hvb hvf).1,
    ⟨by norm_num, (interpolate_boundary_clamp _ _ hvb hvf).2.2.1 (-3) (by norm_num)⟩⟩

/-- Witness for `hex_rgb_roundtrip` at the triple `(26, 242, 9)` and the
mixed-case string `"#1AF209"`. -/
theorem hex_rgb_roundtrip_witness :
    (26 < 256 ∧ 242 < 256 ∧ 9 < 256 ∧
      hexToRGB (rgbToHex ⟨26, 242, 9⟩) = some ⟨26, 242, 9⟩) ∧
    (ValidHex "#1AF209" ∧
      ∃ rgb, hexToRGB "#1AF209" = some rgb ∧ rgbToHex rgb = lowerStr "#1AF209") :=
  ⟨⟨by decide, by decide, by decide,
    hex_rgb_roundtrip.1 26 242 9 (by decide) (by decide) (by decide)⟩,
   ⟨⟨'1', 'A', 'F', '2', '0', '9', by decide, by decide⟩,
    hex_rgb_roundtrip.2.1 "#1AF209" ⟨'1', 'A', 'F', '2', '0', '9', by decide, by decide⟩⟩⟩

/-! ## Claim C1 -/

/-- Claim C1: per parsed segment, the resolved foreground is the
interpolation `(effectiveBg, segmentFgHex | terminalFgHex, factor)` where
`effectiveBg` is the already-faded segment background (when one is declared
and differs from the terminal background) and the terminal background
otherwise; and every successfully processed segment ends up with a
foreground descriptor. -/
theorem fade_foreground_chain (d : ℚ → ℚ) (termBg termFg : String)
    (mode : Latest.ColourMode) (amt : ℚ) (orig out : Latest.StyledText)
    (h : Latest.processSegment d termBg termFg mode amt orig = .ok out) :
    out.FgCol.isSome = true ∧
    out.FgCol.map Latest.Col.Hex =
      (Latest.effectiveBgHex d termBg amt orig).bind
        (fun ebg => Latest.interpHex d ebg (Latest.fgTarget termFg orig) amt) := by
  unfold Latest.processSegment at h
  rcases hbc : orig.BgCol with _ | bc
  · simp only [hbc] at h
    rcases hI : Latest.Interpolate d termBg
        (match orig.FgCol with
         | some fc => if fc.Hex ≠ "" then fc.Hex else termFg
         | none => termFg) amt with e | i
    · rw [hI] at h
      exact absurd h (by simp)
    · rw [hI] at h
      simp only [Except.ok.injEq] at h
      subst h
      refine ⟨by simp [Latest.updateSegmentForegroundColours], ?_⟩
      simp only [Latest.effectiveBgHex, hbc, Option.some_bind, Latest.interpHex,
        Latest.fgTarget]
      rw [hI]
      simp [Latest.updateSegmentForegroundColours]
  · by_cases hcond : bc.Hex ≠ "" ∧ bc.Hex ≠ termBg
    · simp only [hbc, if_pos hcond] at h
      rcases hI1 : Latest.Interpolate d termBg bc.Hex amt with e | i1
      · rw [hI1] at h
        exact absurd h (by simp)
      · rw [hI1] at h
        rcases hfc : orig.FgCol with _ | fc
        · simp only [Latest.updateSegmentBackgroundColours, hbc, hfc] at h
          exact absurd h (by simp)
        · simp only [Latest.updateSegmentBackgroundColours, hbc, hfc] at h
          rcases hI2 : Latest.Interpolate d i1.Result.Hex
              (if fc.Hex ≠ "" then fc.Hex else termFg) amt with e | i2
          · rw [hI2] at h
            exact absurd h (by simp)
          · rw [hI2] at h
            simp only [Except.ok.injEq] at h
            subst h
            refine ⟨by simp [Latest.updateSegmentForegroundColours], ?_⟩
            simp only [Latest.effectiveBgHex, hbc, if_pos hcond, Latest.interpHex,
              Latest.fgTarget, hfc]
            rw [hI1]
            simp only [Option.some_bind]
            rw [hI2]
            simp [Latest.updateSegmentForegroundColours]
    · simp only [hbc, if_neg hcond] at h
      rcases hI : Latest.Interpolate d termBg
          (match orig.FgCol with
           | some fc => if fc.Hex ≠ "" then fc.Hex else termFg
           | none => termFg) amt with e | i
      · rw [hI] at h
        exact absurd h (by simp)
      · rw [hI] at h
        simp only [Except.ok.injEq] at h
        subst h
        refine ⟨by simp [Latest.updateSegmentForegroundColours], ?_⟩
        simp only [Latest.effectiveBgHex, hbc, if_neg hcond, Option.some_bind,
          Latest.interpHex, Latest.fgTarget]
        rw [hI]
        simp [Latest.updateSegmentForegroundColours]

/-- The go-colorful transform at the concrete half-faded red used by the
claim C1 witness. -/
theorem rgbToHSL_halfred : rgbToHSL id ⟨128, 0, 0⟩ = (0, 1, 64/255) := by
  norm_num [rgbToHSL, hslOfColor, min_def, max_def]

/-- The latest-revision `Interpolate` fully evaluated at half-faded red. -/
theorem interp_halfred :
    Latest.Interpolate id "#000000" "#ff0000" (1/2) =
      .ok ⟨"#ff0000", "#000000", 1/2,
           ⟨"#800000", ⟨128, 0, 0⟩, ⟨0, 1, 64/255⟩⟩⟩ := by
  unfold Latest.Interpolate
  rw [show hexToRGB "#000000" = some ⟨0, 0, 0⟩ by decide,
      show hexToRGB "#ff0000" = some ⟨255, 0, 0⟩ by decide]
  simp only [interpolateChannel_mid_half, interpolateChannel_mid_zero]
  rw [rgbToHSL_halfred]
  rfl

/-- `processSegment` fully evaluated at the claim C1 witness input: a
segment declaring foreground `#ff0000` and no background, terminal colours
black/white, factor one half. -/
theorem processSegment_eval_halfred :
    Latest.processSegment id "#000000" "#ffffff" Latest.ColourMode.TrueColour (1/2)
      { Label := "hi", FgCol := some ⟨7, "red", "#ff0000", ⟨255, 0, 0⟩, ⟨0, 100, 50⟩⟩,
        BgCol := none, Style := 0, ColourMode := Latest.ColourMode.Default,
        Offset := 0, Len := 2 } =
    .ok { Label := "hi", FgCol := some ⟨7, "red", "#800000", ⟨128, 0, 0⟩, ⟨0, 1, 64/255⟩⟩,
          BgCol := none, Style := 0, ColourMode := Latest.ColourMode.TrueColour,
          Offset := 0, Len := 2 } := by
  simp only [Latest.processSegment]
  rw [show (if ("#ff0000" : String) ≠ "" then ("#ff0000" : String) else "#ffffff") = "#ff0000"
    from if_pos (by decide)]
  simp only [interp_halfred]
  rfl

/-- Witness for `fade_foreground_chain` at the concrete input of
`processSegment_eval_halfred`: the resulting foreground hex is the
interpolation of the segment foreground against the (terminal) effective
background. -/
theorem fade_foreground_chain_witness :
    Latest.processSegment id "#000000" "#ffffff" Latest.ColourMode.TrueColour (1/2)
      { Label := "hi", FgCol := some ⟨7, "red", "#ff0000", ⟨255, 0, 0⟩, ⟨0, 100, 50⟩⟩,
        BgCol := none, Style := 0, ColourMode := Latest.ColourMode.Default,
        Offset := 0, Len := 2 } =
      .ok { Label := "hi",
            FgCol := some ⟨7, "red", "#800000", ⟨128, 0, 0⟩, ⟨0, 1, 64/255⟩⟩,
            BgCol := none, Style := 0, ColourMode := Latest.ColourMode.TrueColour,
            Offset := 0, Len := 2 } ∧
    ((some (⟨7, "red", "#800000", ⟨128, 0, 0⟩, ⟨0, 1, 64/255⟩⟩ : Latest.Col) :
        Option Latest.Col).isSome = true ∧
      (some (⟨7, "red", "#800000", ⟨128, 0, 0⟩, ⟨0, 1, 64/255⟩⟩ : Latest.Col) :
        Option Latest.Col).map Latest.Col.Hex =
        (Latest.effectiveBgHex id "#000000" (1/2)
          { Label := "hi",
            FgCol := some ⟨7, "red", "#ff0000", ⟨255, 0, 0⟩, ⟨0, 100, 50⟩⟩,
            BgCol := none, Style := 0, ColourMode := Latest.ColourMode.Default,
            Offset := 0, Len := 2 }).bind
          (fun ebg => Latest.interpHex id ebg
            (Latest.fgTarget "#ffffff"
              { Label := "hi",
                FgCol := some ⟨7, "red", "#ff0000", ⟨255, 0, 0⟩, ⟨0, 100, 50⟩⟩,
                BgCol := none, Style := 0, ColourMode := Latest.ColourMode.Default,
                Offset := 0, Len := 2 }) (1/2))) :=
  ⟨processSegment_eval_halfred,
   fade_foreground_chain id "#000000" "#ffffff" Latest.ColourMode.TrueColour (1/2)
     _ _ processSegment_eval_halfred⟩

end Tuifade

namespace Tuifade

/-! ## Claim C8 -/

theorem Latest.fade_ok_forall₂ {d : ℚ → ℚ} {tb tf : String} {mode : Latest.ColourMode}
    {amt : ℚ} : ∀ {segs out : List Latest.StyledText},
    Latest.fade d tb tf mode amt segs = .ok out →
    List.Forall₂ (fun s o => Latest.processSegment d tb tf mode amt s = .ok o) segs out := by
  intro segs
  induction segs with
  | nil =>
    intro out h
    simp only [Latest.fade, Except.ok.injEq] at h
    subst h
    exact List.Forall₂.nil
  | cons s rest ih =>
    intro out h
    unfold Latest.fade at h
    rcases hp : Latest.processSegment d tb tf mode amt s with e | o
    · rw [hp] at h
      exact absurd h (by simp)
    · rw [hp] at h
      rcases hr : Latest.fade d tb tf mode amt rest with e | os
      · rw [hr] at h
        exact absurd h (by simp)
      · rw [hr] at h
        simp only [Except.ok.injEq] at h
        subst h
        exact List.Forall₂.cons hp (ih hr)

theorem Latest.processSegment_bg_unchanged {d : ℚ → ℚ} {tb tf : String}
    {mode : Latest.ColourMode} {amt : ℚ} {orig out : Latest.StyledText}
    (hcond : orig.BgCol = none ∨
      ∃ bc, orig.BgCol = some bc ∧ (bc.Hex = "" ∨ bc.Hex = tb))
    (h : Latest.processSegment d tb tf mode amt orig = .ok out) :
    out.BgCol = orig.BgCol := by
  unfold Latest.processSegment at h
  have hskip : ∀ (seg₁ : Latest.StyledText),
      (match Latest.Interpolate d tb
          (match orig.FgCol with
           | some fc => if fc.Hex ≠ "" then fc.Hex else tf
           | none => tf) amt with
        | .error e => .error e
        | .ok interpolation =>
          .ok (Latest.updateSegmentForegroundColours seg₁ interpolation.Result))
        = Except.ok out → out.BgCol = seg₁.BgCol := by
    intro seg₁ hm
    rcases hI : Latest.Interpolate d tb
        (match orig.FgCol with
         | some fc => if fc.Hex ≠ "" then fc.Hex else tf
         | none => tf) amt with e | i
    · rw [hI] at hm
      exact absurd hm (by simp)
    · rw [hI] at hm
      simp only [Except.ok.injEq] at hm
      subst hm
      simp [Latest.updateSegmentForegroundColours]
  rcases hcond with hbc | ⟨bc, hbc, hhex⟩
  · simp only [hbc] at h
    rw [hbc]
    exact hskip { Label := orig.Label, FgCol := orig.FgCol, BgCol := none,
                  Style := orig.Style, ColourMode := mode, Offset := orig.Offset,
                  Len := orig.Len } h
  · have hif : ¬ (bc.Hex ≠ "" ∧ bc.Hex ≠ tb) := by
      rcases hhex with h1 | h1 <;> simp [h1]
    simp only [hbc, if_neg hif] at h
    rw [hbc]
    exact hskip { Label := orig.Label, FgCol := orig.FgCol, BgCol := some bc,
                  Style := orig.Style, ColourMode := mode, Offset := orig.Offset,
                  Len := orig.Len } h

end Tuifade

namespace Tuifade

/-- Claim C8: a segment that declares no background colour (or an empty
hex), or whose declared background equals the terminal background, comes
out of `fade` with its background descriptor unchanged — in particular a
segment with no background descriptor never acquires one, and an unfaded
background keeps its original hex/RGB/HSL values. -/
theorem fade_background_untouched (d : ℚ → ℚ) (tb tf : String)
    (mode : Latest.ColourMode) (amt : ℚ) (segs out : List Latest.StyledText)
    (h : Latest.fade d tb tf mode amt segs = .ok out) :
    out.length = segs.length ∧
    ∀ (i : Nat) (hi : i < segs.length) (ho : i < out.length),
      ((segs.get ⟨i, hi⟩).BgCol = none ∨
        ∃ bc, (segs.get ⟨i, hi⟩).BgCol = some bc ∧ (bc.Hex = "" ∨ bc.Hex = tb)) →
      (out.get ⟨i, ho⟩).BgCol = (segs.get ⟨i, hi⟩).BgCol := by
  have hf := Latest.fade_ok_forall₂ h
  refine ⟨hf.length_eq.symm, ?_⟩
  intro i hi ho hcond
  exact Latest.processSegment_bg_unchanged hcond (hf.get hi ho)

/-- `fade` fully evaluated on a singleton segment whose declared background
equals the terminal background. -/
theorem fade_eval_bgterm :
    Latest.fade id "#000000" "#ffffff" Latest.ColourMode.TrueColour (1/2)
      [{ Label := "hi", FgCol := some ⟨7, "red", "#ff0000", ⟨255, 0, 0⟩, ⟨0, 100, 50⟩⟩,
         BgCol := some ⟨3, "black", "#000000", ⟨0, 0, 0⟩, ⟨0, 0, 0⟩⟩,
         Style := 0, ColourMode := Latest.ColourMode.Default, Offset := 0, Len := 2 }] =
    .ok [{ Label := "hi",
           FgCol := some ⟨7, "red", "#800000", ⟨128, 0, 0⟩, ⟨0, 1, 64/255⟩⟩,
           BgCol := some ⟨3, "black", "#000000", ⟨0, 0, 0⟩, ⟨0, 0, 0⟩⟩,
           Style := 0, ColourMode := Latest.ColourMode.TrueColour,
           Offset := 0, Len := 2 }] := by
  simp only [Latest.fade, Latest.processSegment]
  rw [if_neg (show ¬ (("#000000" : String) ≠ "" ∧ ("#000000" : String) ≠ "#000000")
    by decide)]
  rw [show (if ("#ff0000" : String) ≠ "" then ("#ff0000" : String) else "#ffffff") = "#ff0000"
    from if_pos (by decide)]
  simp only [interp_halfred]
  rfl

/-- Witness for `fade_background_untouched`: the background descriptor of
the witness segment is untouched by `fade`. -/
theorem fade_background_untouched_witness :
    Latest.fade id "#000000" "#ffffff" Latest.ColourMode.TrueColour (1/2)
      [{ Label := "hi", FgCol := some ⟨7, "red", "#ff0000", ⟨255, 0, 0⟩, ⟨0, 100, 50⟩⟩,
         BgCol := some ⟨3, "black", "#000000", ⟨0, 0, 0⟩, ⟨0, 0, 0⟩⟩,
         Style := 0, ColourMode := Latest.ColourMode.Default, Offset := 0, Len := 2 }] =
      .ok [{ Label := "hi",
             FgCol := some ⟨7, "red", "#800000", ⟨128, 0, 0⟩, ⟨0, 1, 64/255⟩⟩,
             BgCol := some ⟨3, "black", "#000000", ⟨0, 0, 0⟩, ⟨0, 0, 0⟩⟩,
             Style := 0, ColourMode := Latest.ColourMode.TrueColour,
             Offset := 0, Len := 2 }] ∧
    (([{ Label := "hi",
         FgCol := some ⟨7, "red", "#800000", ⟨128, 0, 0⟩, ⟨0, 1, 64/255⟩⟩,
         BgCol := some ⟨3, "black", "#000000", ⟨0, 0, 0⟩, ⟨0, 0, 0⟩⟩,
         Style := 0, ColourMode := Latest.ColourMode.TrueColour,
         Offset := 0, Len := 2 }] : List Latest.StyledText).get ⟨0, by norm_num⟩).BgCol =
      (([{ Label := "hi", FgCol := some ⟨7, "red", "#ff0000", ⟨255, 0, 0⟩, ⟨0, 100, 50⟩⟩,
           BgCol := some ⟨3, "black", "#000000", ⟨0, 0, 0⟩, ⟨0, 0, 0⟩⟩,
           Style := 0, ColourMode := Latest.ColourMode.Default, Offset := 0,
           Len := 2 }] : List Latest.StyledText).get ⟨0, by norm_num⟩).BgCol :=
  ⟨fade_eval_bgterm,
   (fade_background_untouched id "#000000" "#ffffff" Latest.ColourMode.TrueColour (1/2)
     _ _ fade_eval_bgterm).2 0 (by norm_num) (by norm_num)
     (Or.inr ⟨⟨3, "black", "#000000", ⟨0, 0, 0⟩, ⟨0, 0, 0⟩⟩, rfl, Or.inr rfl⟩)⟩

end Tuifade

namespace Tuifade

/-! ## Claim C9 -/

theorem Latest.Interpolate_ne_capability (d : ℚ → ℚ) (bg fg : String) (a : ℚ) :
    Latest.Interpolate d bg fg a ≠ .error .capability := by
  unfold Latest.Interpolate
  cases hexToRGB bg <;> cases hexToRGB fg <;> simp

theorem Latest.updateBg_ne_capability (s : Latest.StyledText)
    (c : Latest.InterpolationResult) :
    Latest.updateSegmentBackgroundColours s c ≠ .error .capability := by
  unfold Latest.updateSegmentBackgroundColours
  cases s.BgCol <;> cases s.FgCol <;> simp

theorem Latest.processSegment_ne_capability (d : ℚ → ℚ) (tb tf : String)
    (mode : Latest.ColourMode) (amt : ℚ) (s : Latest.StyledText) :
    Latest.processSegment d tb tf mode amt s ≠ .error .capability := by
  unfold Latest.processSegment
  intro h
  rcases hbc : s.BgCol with _ | bc <;> simp only [hbc] at h
  · rcases hI : Latest.Interpolate d tb
        (match s.FgCol with
         | some fc => if fc.Hex ≠ "" then fc.Hex else tf
         | none => tf) amt with e | i
    · rw [hI] at h
      simp only [Except.error.injEq] at h
      exact Latest.Interpolate_ne_capability d tb _ amt (h ▸ hI)
    · rw [hI] at h
      exact absurd h (by simp)
  · by_cases hcond : bc.Hex ≠ "" ∧ bc.Hex ≠ tb
    · simp only [if_pos hcond] at h
      rcases hI1 : Latest.Interpolate d tb bc.Hex amt with e | i1
      · rw [hI1] at h
        simp only [Except.error.injEq] at h
        exact Latest.Interpolate_ne_capability d tb bc.Hex amt (h ▸ hI1)
      · simp only [hI1] at h
        rcases hU : Latest.updateSegmentBackgroundColours
            { Label := s.Label, FgCol := s.FgCol, BgCol := some bc,
              Style := s.Style, ColourMode := mode, Offset := s.Offset,
              Len := s.Len } i1.Result with e | s1
        · rw [hU] at h
          simp only [Except.error.injEq] at h
          exact Latest.updateBg_ne_capability _ _ (h ▸ hU)
        · simp only [hU] at h
          rcases hI2 : Latest.Interpolate d i1.Result.Hex
              (match s.FgCol with
               | some fc => if fc.Hex ≠ "" then fc.Hex else tf
               | none => tf) amt with e | i2
          · rw [hI2] at h
            simp only [Except.error.injEq] at h
            exact Latest.Interpolate_ne_capability d i1.Result.Hex _ amt (h ▸ hI2)
          · rw [hI2] at h
            exact absurd h (by simp)
    · simp only [if_neg hcond] at h
      rcases hI : Latest.Interpolate d tb
          (match s.FgCol with
           | some fc => if fc.Hex ≠ "" then fc.Hex else tf
           | none => tf) amt with e | i
      · rw [hI] at h
        simp only [Except.error.injEq] at h
        exact Latest.Interpolate_ne_capability d tb _ amt (h ▸ hI)
      · rw [hI] at h
        exact absurd h (by simp)

theorem Latest.fade_ne_capability (d : ℚ → ℚ) (tb tf : String)
    (mode : Latest.ColourMode) (amt : ℚ) (segs : List Latest.StyledText) :
    Latest.fade d tb tf mode amt segs ≠ .error .capability := by
  induction segs with
  | nil => simp [Latest.fade]
  | cons s rest ih =>
    unfold Latest.fade
    intro h
    rcases hp : Latest.processSegment d tb tf mode amt s with e | o
    · rw [hp] at h
      simp only [Except.error.injEq] at h
      exact Latest.processSegment_ne_capability d tb tf mode amt s (h ▸ hp)
    · rw [hp] at h
      rcases hr : Latest.fade d tb tf mode amt rest with e | os
      · rw [hr] at h
        simp only [Except.error.injEq] at h
        exact ih (h ▸ hr)
      · rw [hr] at h
        exact absurd h (by simp)

/-- Claim C9: when the terminal profile is not truecolor, the top-level
`Fade` returns the original content unchanged together with the
capability error, performing no fading; and this error is raised only at
the top level — the internal `fade` and `Interpolate` can never produce
it. -/
theorem fade_capability_error :
    (∀ (d : ℚ → ℚ) (parse : String → List Latest.StyledText)
        (serialize : List Latest.StyledText → String) (env : Latest.TermEnv)
        (content : String) (i : ℚ),
      env.profile ≠ Latest.Profile.TrueColor →
      Latest.Fade d parse serialize env content i =
        (content, some Latest.FadeError.capability)) ∧
    (∀ (d : ℚ → ℚ) (tb tf : String) (mode : Latest.ColourMode) (amt : ℚ)
        (segs : List Latest.StyledText),
      Latest.fade d tb tf mode amt segs ≠ .error Latest.FadeError.capability) ∧
    (∀ (d : ℚ → ℚ) (bg fg : String) (a : ℚ),
      Latest.Interpolate d bg fg a ≠ .error Latest.FadeError.capability) := by
  refine ⟨?_, Latest.fade_ne_capability, Latest.Interpolate_ne_capability⟩
  intro d parse serialize env content i h
  simp [Latest.Fade, h]

/-- Witness for `fade_capability_error` on an ANSI (non-truecolor)
terminal environment. -/
theorem fade_capability_error_witness :
    (Latest.Profile.ANSI ≠ Latest.Profile.TrueColor) ∧
    Latest.Fade id (fun _ => []) (fun _ => "")
      ⟨Latest.Profile.ANSI, "#000000", "#ffffff"⟩ "hello" (1/2) =
      ("hello", some Latest.FadeError.capability) :=
  ⟨by decide,
   fade_capability_error.1 id (fun _ => []) (fun _ => "")
     ⟨Latest.Profile.ANSI, "#000000", "#ffffff"⟩ "hello" (1/2) (by decide)⟩

end Tuifade

namespace Tuifade.Cached

/-! ## Claim C6 -/

/-- Every cached RGB entry is the true `hexToRGB` conversion of its key. -/
def rgbOK (st : CacheState) : Prop :=
  ∀ p ∈ st.rgb, hexToRGB p.1 = some p.2

/-- Every cached interpolation entry is the cache-free result of SOME
argument triple whose generated key string equals the entry's key.
Because the key is a bare underscore-joined concatenation, that triple
need not have the same colour pair as the call that reads the entry. -/
def interpOK (st : CacheState) : Prop :=
  ∀ p ∈ st.interp, ∃ bg fg f, generateCacheKey bg fg f = p.1 ∧
    Tuifade.Rev1.Interpolate bg fg f = some p.2

/-- Both cache invariants together. -/
def cacheOK (st : CacheState) : Prop := rgbOK st ∧ interpOK st

theorem lookupKey_mem {α β : Type} [DecidableEq α] {l : List (α × β)} {k : α} {v : β}
    (h : lookupKey l k = some v) : (k, v) ∈ l := by
  induction l with
  | nil => simp [lookupKey] at h
  | cons p rest ih =>
    obtain ⟨k', v'⟩ := p
    by_cases hk : k' = k
    · subst hk
      simp [lookupKey] at h
      simp [h]
    · simp only [lookupKey, if_neg hk] at h
      exact List.mem_cons_of_mem _ (ih h)

theorem lookupKey_cons_self {α β : Type} [DecidableEq α] (k : α) (v : β)
    (l : List (α × β)) : lookupKey ((k, v) :: l) k = some v := by
  simp [lookupKey]

theorem getRGB_spec (st : CacheState) (hex : String) (h : rgbOK st) :
    (getRGB st hex).1 = hexToRGB hex ∧
    rgbOK (getRGB st hex).2 ∧
    (getRGB st hex).2.interp = st.interp := by
  unfold getRGB
  rcases hl : lookupKey st.rgb hex with _ | rgb
  · rcases hx : hexToRGB hex with _ | rgb
    · exact ⟨rfl, h, rfl⟩
    · refine ⟨rfl, ?_, rfl⟩
      intro p hp
      rcases List.mem_cons.mp hp with hp | hp
      · subst hp
        exact hx
      · exact h p hp
  · exact ⟨(h _ (lookupKey_mem hl)).symm, h, rfl⟩

theorem Interpolate_spec (st : CacheState) (bg fg : String) (f : ℚ) (h : rgbOK st) :
    (Interpolate st bg fg f).1 =
      (match lookupKey st.interp (generateCacheKey bg fg f) with
       | some v => some v
       | none => Tuifade.Rev1.Interpolate bg fg f) ∧
    rgbOK (Interpolate st bg fg f).2 ∧
    (Interpolate st bg fg f).2.interp =
      (match lookupKey st.interp (generateCacheKey bg fg f) with
       | some _ => st.interp
       | none =>
         match Tuifade.Rev1.Interpolate bg fg f with
         | some v => (generateCacheKey bg fg f, v) :: st.interp
         | none => st.interp) := by
  unfold Interpolate
  rcases hl : lookupKey st.interp (generateCacheKey bg fg f) with _ | v
  · obtain ⟨hb1, hb2, hb3⟩ := getRGB_spec st bg h
    rcases hgb : getRGB st bg with ⟨ob, st₁⟩
    rw [hgb] at hb1 hb2 hb3
    simp only at hb1 hb2 hb3
    simp only [hgb]
    rcases ob with _ | background
    · have hrev : Tuifade.Rev1.Interpolate bg fg f = none := by
        unfold Tuifade.Rev1.Interpolate
        rw [← hb1]
      simp [hrev, hb2, hb3]
    · obtain ⟨hf1, hf2, hf3⟩ := getRGB_spec st₁ fg hb2
      rcases hgf : getRGB st₁ fg with ⟨og, st₂⟩
      rw [hgf] at hf1 hf2 hf3
      simp only at hf1 hf2 hf3
      simp only [hgf]
      rcases og with _ | foreground
      · have hrev : Tuifade.Rev1.Interpolate bg fg f = none := by
          unfold Tuifade.Rev1.Interpolate
          rw [← hb1, ← hf1]
        simp [hrev, hf2, hf3, hb3]
      · have hrev : Tuifade.Rev1.Interpolate bg fg f =
            some (rgbToHex
              ⟨interpolateChannel background.R foreground.R (1 - clampFactor f) (clampFactor f),
               interpolateChannel background.G foreground.G (1 - clampFactor f) (clampFactor f),
               interpolateChannel background.B foreground.B (1 - clampFactor f) (clampFactor f)⟩) := by
          unfold Tuifade.Rev1.Interpolate
          rw [← hb1, ← hf1]
        refine ⟨by simp [hrev], ?_, by simp [hrev, hf3, hb3]⟩
        exact hf2
  · exact ⟨rfl, h, rfl⟩

end Tuifade.Cached

namespace Tuifade

/-- Claim C6 as amended: the caching revision's `Interpolate` is sound
only up to the injectivity failures of its cache-key string
`bg ++ "_" ++ fg ++ "_" ++ %.6f(factor)`.  Any value it returns is the
cache-free (revision-1) computation of SOME argument triple whose
generated key equals the call's key — which covers both different factors
rendering to the same six decimals AND different colour pairs whose
underscore-joined concatenations coincide — so the result need not be the
cache-free computation for the call's exact arguments; but a call whose
key is not yet cached returns exactly the cache-free result, the cache
invariant is preserved, and an immediately repeated identical call
returns the identical value. -/
theorem interpolate_cache_soundness :
    ∀ (st : Cached.CacheState) (bg fg : String) (f : ℚ),
      Cached.cacheOK st →
      (∀ v, (Cached.Interpolate st bg fg f).1 = some v →
        ∃ bg' fg' f',
          Cached.generateCacheKey bg' fg' f' = Cached.generateCacheKey bg fg f ∧
          Rev1.Interpolate bg' fg' f' = some v) ∧
      Cached.cacheOK (Cached.Interpolate st bg fg f).2 ∧
      (Cached.lookupKey st.interp (Cached.generateCacheKey bg fg f) = none →
        (Cached.Interpolate st bg fg f).1 = Rev1.Interpolate bg fg f) ∧
      (Cached.Interpolate (Cached.Interpolate st bg fg f).2 bg fg f).1 =
        (Cached.Interpolate st bg fg f).1 := by
  rintro st bg fg f ⟨hr, hi⟩
  obtain ⟨h1, h2, h3⟩ := Cached.Interpolate_spec st bg fg f hr
  refine ⟨?_, ⟨h2, ?_⟩, ?_, ?_⟩
  · intro v hv
    rw [h1] at hv
    rcases hl : Cached.lookupKey st.interp (Cached.generateCacheKey bg fg f) with _ | w
    · rw [hl] at hv
      exact ⟨bg, fg, f, rfl, hv⟩
    · rw [hl] at hv
      simp only [Option.some.injEq] at hv
      subst hv
      obtain ⟨bg', fg', f', hq, hrev⟩ := hi _ (Cached.lookupKey_mem hl)
      exact ⟨bg', fg', f', hq, hrev⟩
  · intro p hp
    rw [h3] at hp
    rcases hl : Cached.lookupKey st.interp (Cached.generateCacheKey bg fg f) with _ | w
    · rw [hl] at hp
      rcases hrev : Rev1.Interpolate bg fg f with _ | v
      · rw [hrev] at hp
        exact hi p hp
      · rw [hrev] at hp
        rcases List.mem_cons.mp hp with hp | hp
        · subst hp
          exact ⟨bg, fg, f, rfl, hrev⟩
        · exact hi p hp
    · rw [hl] at hp
      exact hi p hp
  · intro hl
    rw [h1, hl]
  · obtain ⟨h1', h2', h3'⟩ :=
      Cached.Interpolate_spec (Cached.Interpolate st bg fg f).2 bg fg f h2
    rw [h1', h3, h1]
    rcases hl : Cached.lookupKey st.interp (Cached.generateCacheKey bg fg f) with _ | w
    · rcases hrev : Rev1.Interpolate bg fg f with _ | v
      · simp [hl, hrev]
      · simp [hl, hrev, Cached.lookupKey]
    · simp [hl]

end Tuifade

namespace Tuifade

/-! Concrete computations for the cache-collision counterexample.  Two
distinct collisions of Go's concatenated cache key are exhibited: the
factors 0.4999998 and 0.5000002 render identically at six decimals
(their cache-free half-fades of black toward white differ, 127 vs 128 per
channel), and the colour pairs ("#ff0000_#00ff00", "#0000ff") and
("#ff0000", "#00ff00_#0000ff") concatenate to the same key string — both
pairs parse, because `hexToRGB` ignores trailing characters. -/

theorem renderFactor6_congr {f g : ℚ} (hf : ¬ f < 0) (hg : ¬ g < 0)
    (h : goRound (|f| * 1000000) = goRound (|g| * 1000000)) :
    Cached.renderFactor6 f = Cached.renderFactor6 g := by
  unfold Cached.renderFactor6
  rw [h, if_neg hf, if_neg hg]

theorem key_quant_collision :
    Cached.generateCacheKey "#000000" "#ffffff" (5000002/10000000) =
      Cached.generateCacheKey "#000000" "#ffffff" (4999998/10000000) := by
  have habs : goRound (|(5000002/10000000 : ℚ)| * 1000000) =
      goRound (|(4999998/10000000 : ℚ)| * 1000000) := by
    rw [show |(5000002/10000000 : ℚ)| = 5000002/10000000 by norm_num,
        show |(4999998/10000000 : ℚ)| = 4999998/10000000 by norm_num]
    norm_num [goRound]
  unfold Cached.generateCacheKey
  rw [renderFactor6_congr (by norm_num) (by norm_num) habs]

theorem key_concat_collision :
    Cached.generateCacheKey "#ff0000" "#00ff00_#0000ff" (1/2) =
      Cached.generateCacheKey "#ff0000_#00ff00" "#0000ff" (1/2) := by
  unfold Cached.generateCacheKey
  exact congrArg (· ++ Cached.renderFactor6 (1/2)) (by decide)

theorem chan_f1 : interpolateChannel 0 255 (1 - clampFactor (4999998/10000000))
    (clampFactor (4999998/10000000)) = 127 := by
  rw [clampFactor_of_mem (by norm_num) (by norm_num)]
  norm_num [interpolateChannel, goRound]
  rfl

theorem chan_f2 : interpolateChannel 0 255 (1 - clampFactor (5000002/10000000))
    (clampFactor (5000002/10000000)) = 128 := by
  rw [clampFactor_of_mem (by norm_num) (by norm_num)]
  norm_num [interpolateChannel, goRound]
  rfl

theorem rev1_f1 : Rev1.Interpolate "#000000" "#ffffff" (4999998/10000000) =
    some "#7f7f7f" := by
  rw [Rev1.Interpolate_eval (show hexToRGB "#000000" = some ⟨0, 0, 0⟩ by decide)
    (show hexToRGB "#ffffff" = some ⟨255, 255, 255⟩ by decide)]
  rw [chan_f1]
  decide

theorem rev1_f2 : Rev1.Interpolate "#000000" "#ffffff" (5000002/10000000) =
    some "#808080" := by
  rw [Rev1.Interpolate_eval (show hexToRGB "#000000" = some ⟨0, 0, 0⟩ by decide)
    (show hexToRGB "#ffffff" = some ⟨255, 255, 255⟩ by decide)]
  rw [chan_f2]
  decide

theorem rev1_crossA : Rev1.Interpolate "#ff0000_#00ff00" "#0000ff" (1/2) =
    some "#800080" := by
  rw [Rev1.Interpolate_eval (show hexToRGB "#ff0000_#00ff00" = some ⟨255, 0, 0⟩ by decide)
    (show hexToRGB "#0000ff" = some ⟨0, 0, 255⟩ by decide)]
  rw [interpolateChannel_mid_down, interpolateChannel_mid_zero, interpolateChannel_mid_half]
  decide

theorem rev1_crossB : Rev1.Interpolate "#ff0000" "#00ff00_#0000ff" (1/2) =
    some "#808000" := by
  rw [Rev1.Interpolate_eval (show hexToRGB "#ff0000" = some ⟨255, 0, 0⟩ by decide)
    (show hexToRGB "#00ff00_#0000ff" = some ⟨0, 255, 0⟩ by decide)]
  rw [interpolateChannel_mid_down, interpolateChannel_mid_half, interpolateChannel_mid_zero]
  decide

/-- Counterexample to claim C6, in two parts.  First, the cache key
renders the factor with `%.6f`, so after a call with factor 0.4999998
(result `#7f7f7f`), a call with factor 0.5000002 returns the cached
`#7f7f7f` although its cache-free result is `#808080`.  Second, the key
is a bare concatenation, so after
`Interpolate("#ff0000_#00ff00", "#0000ff", 0.5) = #800080` the call
`Interpolate("#ff0000", "#00ff00_#0000ff", 0.5)` — a different colour
pair producing the identical key string — returns the cached `#800080`
although its cache-free result is `#808000`.  Either way the cache DOES
change an observable result. -/
theorem interpolate_cache_collision_counterexample :
    ((Cached.Interpolate ⟨[], []⟩ "#000000" "#ffffff" (4999998/10000000)).1 =
      some "#7f7f7f" ∧
     (Cached.Interpolate
        (Cached.Interpolate ⟨[], []⟩ "#000000" "#ffffff" (4999998/10000000)).2
        "#000000" "#ffffff" (5000002/10000000)).1 = some "#7f7f7f" ∧
     Rev1.Interpolate "#000000" "#ffffff" (5000002/10000000) = some "#808080" ∧
     ("#7f7f7f" : String) ≠ "#808080") ∧
    ((Cached.Interpolate ⟨[], []⟩ "#ff0000_#00ff00" "#0000ff" (1/2)).1 =
      some "#800080" ∧
     (Cached.Interpolate
        (Cached.Interpolate ⟨[], []⟩ "#ff0000_#00ff00" "#0000ff" (1/2)).2
        "#ff0000" "#00ff00_#0000ff" (1/2)).1 = some "#800080" ∧
     Rev1.Interpolate "#ff0000" "#00ff00_#0000ff" (1/2) = some "#808000" ∧
     ("#800080" : String) ≠ "#808000") := by
  have hr0 : Cached.rgbOK ⟨[], []⟩ := by
    intro p hp
    simp at hp
  constructor
  · obtain ⟨h1, h2, h3⟩ :=
      Cached.Interpolate_spec ⟨[], []⟩ "#000000" "#ffffff" (4999998/10000000) hr0
    have hl0 : Cached.lookupKey ((⟨[], []⟩ : Cached.CacheState)).interp
        (Cached.generateCacheKey "#000000" "#ffffff" (4999998/10000000)) = none := rfl
    rw [hl0] at h1 h3
    rw [rev1_f1] at h1 h3
    refine ⟨h1, ?_, rev1_f2, by decide⟩
    obtain ⟨h1', h2', h3'⟩ :=
      Cached.Interpolate_spec (Cached.Interpolate ⟨[], []⟩ "#000000" "#ffffff"
        (4999998/10000000)).2 "#000000" "#ffffff" (5000002/10000000) h2
    rw [h1', h3, key_quant_collision, Cached.lookupKey_cons_self]
  · obtain ⟨h1, h2, h3⟩ :=
      Cached.Interpolate_spec ⟨[], []⟩ "#ff0000_#00ff00" "#0000ff" (1/2) hr0
    have hl0 : Cached.lookupKey ((⟨[], []⟩ : Cached.CacheState)).interp
        (Cached.generateCacheKey "#ff0000_#00ff00" "#0000ff" (1/2)) = none := rfl
    rw [hl0] at h1 h3
    rw [rev1_crossA] at h1 h3
    refine ⟨h1, ?_, rev1_crossB, by decide⟩
    obtain ⟨h1', h2', h3'⟩ :=
      Cached.Interpolate_spec (Cached.Interpolate ⟨[], []⟩ "#ff0000_#00ff00" "#0000ff"
        (1/2)).2 "#ff0000" "#00ff00_#0000ff" (1/2) h2
    rw [h1', h3, key_concat_collision, Cached.lookupKey_cons_self]

end Tuifade

namespace Tuifade

/-- Witness for `interpolate_cache_soundness` at the empty cache and
factor one half. -/
theorem interpolate_cache_soundness_witness :
    Cached.cacheOK ⟨[], []⟩ ∧
    ((∀ v, (Cached.Interpolate ⟨[], []⟩ "#000000" "#ffffff" (1/2)).1 = some v →
        ∃ bg' fg' f',
          Cached.generateCacheKey bg' fg' f' =
            Cached.generateCacheKey "#000000" "#ffffff" (1/2) ∧
          Rev1.Interpolate bg' fg' f' = some v) ∧
      Cached.cacheOK (Cached.Interpolate ⟨[], []⟩ "#000000" "#ffffff" (1/2)).2 ∧
      (Cached.lookupKey ((⟨[], []⟩ : Cached.CacheState)).interp
          (Cached.generateCacheKey "#000000" "#ffffff" (1/2)) = none →
        (Cached.Interpolate ⟨[], []⟩ "#000000" "#ffffff" (1/2)).1 =
          Rev1.Interpolate "#000000" "#ffffff" (1/2)) ∧
      (Cached.Interpolate (Cached.Interpolate ⟨[], []⟩ "#000000" "#ffffff" (1/2)).2
          "#000000" "#ffffff" (1/2)).1 =
        (Cached.Interpolate ⟨[], []⟩ "#000000" "#ffffff" (1/2)).1) := by
  have hok : Cached.cacheOK ⟨[], []⟩ := by
    constructor
    · intro p hp
      simp at hp
    · intro p hp
      simp at hp
  exact ⟨hok, interpolate_cache_soundness ⟨[], []⟩ "#000000" "#ffffff" (1/2) hok⟩

end Tuifade
